import Mathlib

/-!
Shallow embedding of the cafe ordering backend (Express server, `server/index.js`):
phone normalization, OTP session flow, order creation and status update,
bill computation, and the daily report aggregator.

JavaScript numbers are modelled exactly: integer-valued quantities as `Int`
(operations stay well within the 2^53 safe-integer range), and
`Math.round(x)` as `⌊x + 1/2⌋` over `ℚ` (JS `Math.round` rounds half toward
+∞, which on non-negative inputs is round-half-away-from-zero).
JS truthiness on the optional numeric / string fields of request bodies is
modelled explicitly: `x || d` yields `d` when `x` is absent, `0`, or `""`.
-/

/-- JS `x || d` for an optional number `x`: absent or `0` falls back to `d`. -/
def jsNum (v : Option Int) (d : Int) : Int :=
  match v with
  | none => d
  | some x => if x = 0 then d else x

/-- JS `x || null` for an optional number: `0` collapses to `null`. -/
def jsNumOrNull (v : Option Int) : Option Int :=
  match v with
  | none => none
  | some x => if x = 0 then none else some x

/-- JS `x || d` for an optional string `x`: absent or `""` falls back to `d`. -/
def jsStr (v : Option String) (d : String) : String :=
  match v with
  | none => d
  | some s => if s = "" then d else s

/-- JS `Math.round`: round half toward positive infinity, `⌊x + 1/2⌋`. -/
def jsRound (q : ℚ) : Int := ⌊q + 1/2⌋

/-! ## Phone normalization (`normalizePhone`, `isValidPhone`)

Source:
```js
function normalizePhone(raw) {
  if (!raw) return null;
  let v = String(raw).trim();
  if (v.startsWith('whatsapp:')) v = v.substring('whatsapp:'.length);
  v = v.replace(/[^0-9+]/g, '');
  if (!v.startsWith('+')) {
    const cc = process.env.DEFAULT_COUNTRY_CODE || '+1';
    v = cc + v.replace(/^0+/, '');
  }
  return v;
}
```
Modelled on `List Char` (a Lean `String` is its list of characters); the
default country code is the configured one, `"+1"` unless overridden. -/

/-- Characters kept by `v.replace(/[^0-9+]/g, '')`. -/
def isPhoneChar (c : Char) : Bool := c.isDigit || c = '+'

/-- JS `String.prototype.trim`: drop whitespace at both ends. -/
def trimChars (l : List Char) : List Char :=
  ((l.dropWhile Char.isWhitespace).reverse.dropWhile Char.isWhitespace).reverse

/-- The transport marker stripped from stored phone keys (`whatsapp:`). -/
def waMarker : List Char := "whatsapp:".toList

/-- Trim, strip the `whatsapp:` marker, and drop every non-`[0-9+]` character:
the first three steps of `normalizePhone`. -/
def cleanedChars (raw : List Char) : List Char :=
  let v := trimChars raw
  let v := if v.take 9 = waMarker then v.drop 9 else v
  v.filter isPhoneChar

/-- `normalizePhone` on character lists, parametrized by the default country code. -/
def normalizePhoneChars (cc : List Char) (raw : List Char) : Option (List Char) :=
  if raw = [] then none
  else
    let v := cleanedChars raw
    if v.head? = some '+' then some v
    else some (cc ++ v.dropWhile (fun c => c = '0'))

/-- The configured default country code (`DEFAULT_COUNTRY_CODE || '+1'`). -/
def defaultCountryCode : List Char := "+1".toList

/-- `normalizePhone(raw)`: `null` on empty input, otherwise the canonical key. -/
def normalizePhone (raw : String) : Option String :=
  (normalizePhoneChars defaultCountryCode raw.toList).map (fun l => String.mk l)

/-- `isValidPhone(raw)`: normalize, then require at least 8 digits. -/
def isValidPhone (raw : String) : Bool :=
  match normalizePhone raw with
  | none => false
  | some n => 8 ≤ (n.toList.filter Char.isDigit).length

example : normalizePhone "0455123456" = some "+1455123456" := by decide
example : normalizePhone "+14155551234" = some "+14155551234" := by decide
example : isValidPhone "+12345678" = true := by decide
example : normalizePhone "" = none := by rfl

/-! ## Data model: line items, orders, bills -/

/-- One line item of an order or a bill: `{ id, name, price, quantity }`.
`price` and `quantity` are optional in request bodies; the handlers apply
the JS defaults `(it.price || 0)` and `(it.quantity || 1)`. -/
structure LineItem where
  id : Option String
  name : String
  price : Option Int
  quantity : Option Int
deriving DecidableEq

/-- `items.reduce((s, it) => s + (it.price || 0) * (it.quantity || 1), 0)`,
the item-sum shared by the `/orders` and `/bills` handlers. -/
def itemsSubtotal (items : List LineItem) : Int :=
  items.foldl (fun s it => s + jsNum it.price 0 * jsNum it.quantity 1) 0

/-- An order record as stored in the in-memory `orders` array. -/
structure Order where
  id : String
  tableNumber : Option Int
  customerName : String
  items : List LineItem
  totalAmount : Int
  status : String
  createdAt : Int
  updatedAt : Option Int
deriving DecidableEq

/-- A bill record as stored in the in-memory `bills` array. -/
structure Bill where
  id : String
  tableNumber : Option Int
  customerName : String
  customerPhone : Option String
  items : List LineItem
  subtotal : Int
  tax : Int
  service : Int
  total : Int
  createdAt : Int
deriving DecidableEq

/-! ## Bill computation (`POST /bills` arithmetic, spec §4.3 `computeBill`)

Source (inlined in the `/bills` handler):
```js
const subtotal = items.reduce((s, it) => s + (it.price || 0) * (it.quantity || 1), 0);
const taxRate = 0.05;
const serviceRate = 0.02;
const tax = Math.round(subtotal * taxRate);
const service = Math.round(subtotal * serviceRate);
const total = subtotal + tax + service;
```
-/

/-- The four computed monetary fields of a bill. -/
structure BillTotals where
  subtotal : Int
  tax : Int
  service : Int
  total : Int
deriving DecidableEq

/-- The bill arithmetic of the `/bills` handler (spec's `computeBill`). -/
def computeBill (items : List LineItem) : BillTotals :=
  let subtotal := itemsSubtotal items
  let tax := jsRound ((subtotal : ℚ) * (5 / 100))
  let service := jsRound ((subtotal : ℚ) * (2 / 100))
  { subtotal := subtotal, tax := tax, service := service,
    total := subtotal + tax + service }

example : computeBill [⟨none, "x", some 120, some 2⟩] = ⟨240, 12, 5, 257⟩ := by
  simp only [computeBill, itemsSubtotal, jsNum, jsRound]
  norm_num
example : computeBill [⟨none, "x", some 20, some 2⟩] = ⟨40, 2, 1, 43⟩ := by
  simp only [computeBill, itemsSubtotal, jsNum, jsRound]
  norm_num

/-! ## Order creation and status update (`POST /orders`, `PATCH /orders/:id`)

The in-memory path of the handlers (MongoDB disabled). Responses are
modelled as `Except`: `.error msg` is the 400/404 `{success:false, message}`
response, `.ok` the success payload. -/

/-- Body of `POST /orders`: `{tableNumber?, customerName?, items?, totalAmount?}`.
A missing or non-array `items` field is modelled as `none`. -/
structure CreateOrderReq where
  tableNumber : Option Int
  customerName : Option String
  items : Option (List LineItem)
  totalAmount : Option Int
deriving DecidableEq

/-- `POST /orders`: validate `items`, build the order, append it to the store.
Returns the new store and the response (`.ok orderId` or `.error message`). -/
def createOrder (st : List Order) (req : CreateOrderReq) (now : Int) :
    List Order × Except String String :=
  match req.items with
  | none => (st, .error "No items in order")
  | some its =>
    if its = [] then (st, .error "No items in order")
    else
      let order : Order := {
        id := "ORD-" ++ toString now,
        tableNumber := jsNumOrNull req.tableNumber,
        customerName := jsStr req.customerName "Guest",
        items := its,
        totalAmount := jsNum req.totalAmount (itemsSubtotal its),
        status := "PENDING",
        createdAt := now,
        updatedAt := none }
      (st ++ [order], .ok order.id)

/-- `PATCH /orders/:id` (in-memory path): find the order by id; when the
requested `status` is truthy, overwrite `status` and set `updatedAt`; 404
when the order is absent. Returns the new store and the response. -/
def patchOrder (st : List Order) (id : String) (status : Option String) (now : Int) :
    List Order × Except String Order :=
  match st.findIdx? (fun o => o.id == id) with
  | none => (st, .error "Order not found")
  | some i =>
    match st[i]? with
    | none => (st, .error "Order not found")
    | some o =>
      match status with
      | some s =>
        if s = "" then (st, .ok o)
        else
          let o' := { o with status := s, updatedAt := some now }
          (st.set i o', .ok o')
      | none => (st, .ok o)

/-! ## OTP session manager (`POST /otp`, `POST /otp/verify`)

Source keeps `const otps = {}` mapping normalized phone to `{code, createdAt}`.
The random 4-digit draw `Math.floor(1000 + Math.random() * 9000)` is modelled
as an explicit `draw` argument. Stored and submitted codes are compared via
string equality in the source (`record.code !== String(code)`); since the
decimal rendering of naturals is injective, they are modelled as `Nat` and
compared directly. -/

/-- A stored OTP record: `{ code, createdAt }`. -/
structure OtpRecord where
  code : Nat
  createdAt : Int
deriving DecidableEq

/-- The `otps` table: normalized phone to outstanding record. -/
def OtpStore : Type := String → Option OtpRecord

/-- The empty `otps` table (server start). -/
def emptyOtps : OtpStore := fun _ => none

/-- `POST /otp`: validate the phone, then store `{code: draw, createdAt: now}`
under the normalized phone, overwriting any prior record. Returns the new
table and the response (`.ok normalizedPhone` or `.error message`). -/
def requestOtp (st : OtpStore) (phone : String) (draw : Nat) (now : Int) :
    OtpStore × Except String String :=
  if phone = "" then (st, .error "Phone required")
  else if isValidPhone phone then
    match normalizePhone phone with
    | some np =>
      (fun p => if p = np then some ⟨draw, now⟩ else st p, .ok np)
    | none => (st, .error "Invalid phone format")
  else (st, .error "Invalid phone format")

/-- `POST /otp/verify`: validate inputs, look up the record for the
normalized phone, compare codes, and delete the record on success. -/
def verifyOtp (st : OtpStore) (phone : String) (code : Nat) :
    OtpStore × Except String String :=
  if phone = "" ∨ code = 0 then (st, .error "Phone and code required")
  else if isValidPhone phone then
    match normalizePhone phone with
    | some np =>
      match st np with
      | none => (st, .error "No OTP requested")
      | some r =>
        if r.code ≠ code then (st, .error "Invalid code")
        else (fun p => if p = np then none else st p, .ok np)
    | none => (st, .error "Invalid phone format")
  else (st, .error "Invalid phone format")

/-- Body of `POST /bills`: `{tableNumber?, customerName?, customerPhone?, items?}`. -/
structure CreateBillReq where
  tableNumber : Option Int
  customerName : Option String
  customerPhone : Option String
  items : Option (List LineItem)
deriving DecidableEq

/-- `POST /bills`: validate `items` and the optional `customerPhone`, compute
the bill, append it to the store. -/
def createBill (st : List Bill) (req : CreateBillReq) (now : Int) :
    List Bill × Except String Bill :=
  match req.items with
  | none => (st, .error "No items to bill")
  | some its =>
    if its = [] then (st, .error "No items to bill")
    else
      let phoneCheck : Except String (Option String) :=
        match req.customerPhone with
        | none => .ok none
        | some cp =>
          if cp = "" then .ok none
          else if isValidPhone cp then .ok (normalizePhone cp)
          else .error "invalid phone format"
      match phoneCheck with
      | .error e => (st, .error e)
      | .ok ncp =>
        let t := computeBill its
        let bill : Bill := {
          id := "BILL-" ++ toString now,
          tableNumber := jsNumOrNull req.tableNumber,
          customerName := jsStr req.customerName "Guest",
          customerPhone := ncp,
          items := its,
          subtotal := t.subtotal,
          tax := t.tax,
          service := t.service,
          total := t.total,
          createdAt := now }
        (st ++ [bill], .ok bill)

/-! ## Daily report (`GET /reports/daily`)

Source:
```js
const start = new Date(date + "T00:00:00").getTime();
const end = new Date(date + "T23:59:59").getTime();
const dayBills = bills.filter((b) => b.createdAt >= start && b.createdAt <= end);
const totalRevenue = dayBills.reduce((s, b) => s + (b.total || 0), 0);
const totalOrders = dayBills.length;
const customers = new Set(dayBills.map((b) => b.customerName));
// ... topItems ...
const hourly = [];
for (let h = 0; h < 24; h++) {
  const hourStart = start + h * 3600 * 1000;
  const hourEnd = hourStart + 3600 * 1000 - 1;
  const hb = dayBills.filter((b) => b.createdAt >= hourStart && b.createdAt <= hourEnd);
  hourly.push({ hour: ..., orders: hb.length, revenue: hb.reduce((s, x) => s + (x.total || 0), 0) });
}
```
The date is modelled by the epoch millisecond `start` of its `00:00:00`;
`end` is then `start + 86399000` (`T23:59:59` of the same date, fixed UTC
offset). `averageOrderValue` (JS float division) is modelled as an exact
rational. `topItems` is not modelled: no claim concerns it. The hour label
string is modelled by the hour number. -/

/-- One entry of the 24-slot `hourlyBreakdown`. -/
structure HourlyEntry where
  hour : Nat
  orders : Nat
  revenue : Int
deriving DecidableEq

/-- The daily report payload (minus `topItems`, see above). -/
structure Report where
  totalOrders : Nat
  totalRevenue : Int
  averageOrderValue : ℚ
  totalCustomers : Nat
  hourlyBreakdown : List HourlyEntry
deriving DecidableEq

/-- Milliseconds from `T00:00:00` to `T23:59:59` of one date. -/
def dayEndOffset : Int := 86399000

/-- `GET /reports/daily` over the stored bills, for the date whose
`00:00:00` is the epoch millisecond `start`. -/
def dailyReport (bills : List Bill) (start : Int) : Report :=
  let finish := start + dayEndOffset
  let dayBills := bills.filter
    (fun b => decide (start ≤ b.createdAt) && decide (b.createdAt ≤ finish))
  let totalRevenue := dayBills.foldl (fun s b => s + jsNum (some b.total) 0) 0
  let totalOrders := dayBills.length
  let totalCustomers := (dayBills.map (fun b => b.customerName)).dedup.length
  let hourly := (List.range 24).map (fun (h : Nat) =>
    let hourStart := start + (h : Int) * (3600 * 1000)
    let hourEnd := hourStart + 3600 * 1000 - 1
    let hb := dayBills.filter
      (fun b => decide (hourStart ≤ b.createdAt) && decide (b.createdAt ≤ hourEnd))
    { hour := h, orders := hb.length,
      revenue := hb.foldl (fun s x => s + jsNum (some x.total) 0) 0 })
  { totalOrders := totalOrders,
    totalRevenue := totalRevenue,
    averageOrderValue := if totalOrders = 0 then 0 else (totalRevenue : ℚ) / (totalOrders : ℚ),
    totalCustomers := totalCustomers,
    hourlyBreakdown := hourly }

/-! ## Helper lemmas -/

/-- `x || 0` on a present number is the number itself. -/
lemma jsNum_some_zero (x : Int) : jsNum (some x) 0 = x := by
  simp only [jsNum]
  split <;> omega

/-- A character kept by the `[^0-9+]` strip is not whitespace. -/
lemma isPhoneChar_not_whitespace {c : Char} (h : isPhoneChar c = true) :
    c.isWhitespace = false := by
  simp only [isPhoneChar, Bool.or_eq_true, decide_eq_true_eq] at h
  rcases h with h | h
  · by_contra hw
    simp only [Bool.not_eq_false, Char.isWhitespace, Bool.or_eq_true,
      decide_eq_true_eq] at hw
    rcases hw with ((rfl | rfl) | rfl) | rfl <;> simp [Char.isDigit] at h
  · subst h
    decide

/-- `dropWhile` is the identity when no element satisfies the predicate. -/
lemma dropWhile_of_all_false {α : Type} (p : α → Bool) (l : List α)
    (h : ∀ c ∈ l, p c = false) : l.dropWhile p = l := by
  cases l with
  | nil => rfl
  | cons a t =>
    rw [List.dropWhile_cons_of_neg]
    simp [h a (List.mem_cons_self a t)]

/-- JS `trim` fixes a string with no whitespace at all. -/
lemma trimChars_fix {l : List Char} (h : ∀ c ∈ l, c.isWhitespace = false) :
    trimChars l = l := by
  unfold trimChars
  rw [dropWhile_of_all_false _ _ h, dropWhile_of_all_false, List.reverse_reverse]
  intro c hc
  exact h c (by simpa using hc)

/-- Every character list produced by the normalizer starts with `'+'` and
contains only `[0-9+]` characters. -/
lemma normalizePhoneChars_output {raw out : List Char}
    (h : normalizePhoneChars defaultCountryCode raw = some out) :
    out.head? = some '+' ∧ ∀ c ∈ out, isPhoneChar c = true := by
  simp only [normalizePhoneChars] at h
  split at h
  · exact absurd h (by simp)
  · split at h
    · rename_i hplus
      obtain rfl : cleanedChars raw = out := by simpa using h
      refine ⟨hplus, fun c hc => ?_⟩
      exact (List.mem_filter.mp hc).2
    · obtain rfl : defaultCountryCode ++ (cleanedChars raw).dropWhile (fun c => c = '0') = out := by
        simpa using h
      constructor
      · rfl
      · intro c hc
        rcases List.mem_append.mp hc with hc | hc
        · have hcc : defaultCountryCode = ['+', '1'] := rfl
          rw [hcc] at hc
          simp only [List.mem_cons, List.not_mem_nil, or_false] at hc
          rcases hc with rfl | rfl <;> decide
        · have hm : c ∈ cleanedChars raw := (List.dropWhile_sublist _).mem hc
          exact (List.mem_filter.mp hm).2

/-- A list of `[0-9+]` characters starting with `'+'` is a fixed point of the
normalizer. -/
lemma normalizePhoneChars_fix {out : List Char}
    (hplus : out.head? = some '+') (hchars : ∀ c ∈ out, isPhoneChar c = true) :
    normalizePhoneChars defaultCountryCode out = some out := by
  have hne : out ≠ [] := by
    intro h
    subst h
    simp at hplus
  have hclean : cleanedChars out = out := by
    obtain ⟨t, rfl⟩ : ∃ t, out = '+' :: t := by
      cases out with
      | nil => simp at hplus
      | cons a t =>
        simp only [List.head?_cons, Option.some.injEq] at hplus
        exact ⟨t, by rw [hplus]⟩
    simp only [cleanedChars]
    rw [trimChars_fix (fun c hc => isPhoneChar_not_whitespace (hchars c hc))]
    rw [if_neg (by simp [waMarker, List.take_cons])]
    exact List.filter_eq_self.mpr hchars
  simp only [normalizePhoneChars, if_neg hne, hclean, hplus, if_pos]

/-- `toList` of an empty string. -/
lemma toList_eq_nil_iff (s : String) : s.toList = [] ↔ s = "" := by
  cases s with
  | mk d =>
    constructor
    · intro h
      have hd : d = [] := h
      subst hd
      rfl
    · intro h
      rw [h]
      rfl

/-! ## Claims about phone normalization (C5, C6) -/

/-- C5: phone normalization is idempotent: for every raw input string `s`,
`normalize(normalize(s))` equals `normalize(s)`, a `null` result propagating,
under the configured default country code `"+1"`. -/
theorem normalize_idempotent (s : String) :
    (normalizePhone s).bind normalizePhone = normalizePhone s := by
  cases hn : normalizePhone s with
  | none => rfl
  | some t =>
    rw [Option.some_bind]
    obtain ⟨l, hl, rfl⟩ := Option.map_eq_some'.mp hn
    have hout := normalizePhoneChars_output hl
    have hfix := normalizePhoneChars_fix hout.1 hout.2
    show normalizePhone (String.mk l) = some (String.mk l)
    simp only [normalizePhone]
    have hml : (String.mk l).toList = l := rfl
    rw [hml, hfix]
    rfl

/-- C6: when the cleaned input has no leading `'+'`, the default country code
`"+1"` is prepended after stripping leading zeros; in particular
`normalize("0455123456") = "+1455123456"` and `normalize("+14155551234")`
is unchanged. -/
theorem normalize_default_country_code :
    (∀ raw : String, raw ≠ "" → (cleanedChars raw.toList).head? ≠ some '+' →
        normalizePhone raw =
          some (String.mk (defaultCountryCode ++
            (cleanedChars raw.toList).dropWhile (fun c => c = '0')))) ∧
    normalizePhone "0455123456" = some "+1455123456" ∧
    normalizePhone "+14155551234" = some "+14155551234" := by
  refine ⟨?_, by decide, by decide⟩
  intro raw hne hplus
  have hl : raw.toList ≠ [] := fun h => hne ((toList_eq_nil_iff raw).mp h)
  simp only [normalizePhone, normalizePhoneChars, if_neg hl, if_neg hplus]
  rfl

/-- C6 witness: the general branch of `normalize_default_country_code`
evaluated at `"0455123456"`. -/
theorem normalize_default_country_code_witness :
    (("0455123456" : String) ≠ "" ∧
      (cleanedChars "0455123456".toList).head? ≠ some '+') ∧
    normalizePhone "0455123456" =
      some (String.mk (defaultCountryCode ++
        (cleanedChars "0455123456".toList).dropWhile (fun c => c = '0'))) :=
  ⟨⟨by decide, by decide⟩,
    normalize_default_country_code.1 "0455123456" (by decide) (by decide)⟩

/-! ## Claims about the order handlers (C1, C7, C8) -/

/-- C1 counterexample: an order whose status is `COMPLETED` is not terminal —
a later `PATCH` with requested status `PENDING` changes its stored status to
`PENDING`, contradicting the claim that it stays `COMPLETED`. -/
theorem completed_order_patched_cex :
    ((patchOrder [⟨"ORD-1", none, "Guest", [], 0, "COMPLETED", 0, none⟩]
        "ORD-1" (some "PENDING") 5).1.map (fun o => o.status)) = ["PENDING"] ∧
    ((patchOrder [⟨"ORD-1", none, "Guest", [], 0, "COMPLETED", 0, none⟩]
        "ORD-1" (some "PENDING") 5).1.map (fun o => o.status)) ≠ ["COMPLETED"] := by
  constructor <;> decide

/-- C1 (amended): the status-update operation enforces no terminal state —
whenever the order is found and the requested status is truthy (non-empty),
the stored status is overwritten with the requested value, regardless of the
current status (in particular `COMPLETED`), and `updatedAt` is set. -/
theorem patch_overwrites_status (st : List Order) (id s : String) (now : Int)
    (o' : Order) (hs : s ≠ "")
    (h : (patchOrder st id (some s) now).2 = .ok o') :
    o'.status = s ∧ o'.updatedAt = some now := by
  simp only [patchOrder] at h
  split at h
  · simp at h
  · split at h
    · simp at h
    · rw [if_neg hs] at h
      simp only [Except.ok.injEq] at h
      subst h
      exact ⟨rfl, rfl⟩

/-- C1 witness: `patch_overwrites_status` applied to a `COMPLETED` order
patched to `PENDING`. -/
theorem patch_overwrites_status_witness :
    (("PENDING" : String) ≠ "" ∧
      (patchOrder [⟨"ORD-1", none, "Guest", [], 0, "COMPLETED", 0, none⟩]
          "ORD-1" (some "PENDING") 5).2 =
        .ok ⟨"ORD-1", none, "Guest", [], 0, "PENDING", 0, some 5⟩) ∧
    ((⟨"ORD-1", none, "Guest", [], 0, "PENDING", 0, some 5⟩ : Order).status
        = "PENDING" ∧
      (⟨"ORD-1", none, "Guest", [], 0, "PENDING", 0, some 5⟩ : Order).updatedAt
        = some 5) :=
  ⟨⟨by decide, by rfl⟩,
    patch_overwrites_status [⟨"ORD-1", none, "Guest", [], 0, "COMPLETED", 0, none⟩]
      "ORD-1" "PENDING" 5 ⟨"ORD-1", none, "Guest", [], 0, "PENDING", 0, some 5⟩
      (by decide) (by rfl)⟩

/-- C7: a request with missing (or non-array) or empty `items` is rejected by
both `POST /orders` and `POST /bills` with the validation error, and neither
store is changed. -/
theorem empty_items_rejected (stO : List Order) (reqO : CreateOrderReq)
    (stB : List Bill) (reqB : CreateBillReq) (now now' : Int)
    (hO : reqO.items = none ∨ reqO.items = some [])
    (hB : reqB.items = none ∨ reqB.items = some []) :
    createOrder stO reqO now = (stO, .error "No items in order") ∧
    createBill stB reqB now' = (stB, .error "No items to bill") := by
  constructor
  · rcases hO with h | h <;> simp [createOrder, h]
  · rcases hB with h | h <;> simp [createBill, h]

/-- C7 witness: a missing `items` on `POST /orders` and an empty `items`
array on `POST /bills`, both against empty stores. -/
theorem empty_items_rejected_witness :
    ((CreateOrderReq.mk none none none none).items = none ∨
      (CreateOrderReq.mk none none none none).items = some []) ∧
    ((CreateBillReq.mk none none none (some [])).items = none ∨
      (CreateBillReq.mk none none none (some [])).items = some []) ∧
    (createOrder [] (CreateOrderReq.mk none none none none) 0
        = ([], .error "No items in order") ∧
      createBill [] (CreateBillReq.mk none none none (some [])) 0
        = ([], .error "No items to bill")) :=
  ⟨Or.inl rfl, Or.inr rfl,
    empty_items_rejected [] _ [] _ 0 0 (Or.inl rfl) (Or.inr rfl)⟩

/-- C8 counterexample: an explicitly supplied `totalAmount: 0` is not kept —
JS `totalAmount || sum` treats `0` as absent, so the created order's
`totalAmount` is the computed item sum `5`, not the supplied `0`. -/
theorem order_totalAmount_zero_cex :
    ((createOrder [] ⟨none, none, some [⟨none, "x", some 5, some 1⟩], some 0⟩
        0).1.map (fun o => o.totalAmount)) = [5] ∧
    ((createOrder [] ⟨none, none, some [⟨none, "x", some 5, some 1⟩], some 0⟩
        0).1.map (fun o => o.totalAmount)) ≠ [0] := by
  constructor <;> decide

/-- C8 (amended): the created order's `totalAmount` is the JS-truthy choice
`totalAmount || sum`: it equals the supplied value whenever a non-zero
`totalAmount` is provided, and the sum of `price × quantity` over the items
when `totalAmount` is absent or `0`. -/
theorem order_totalAmount_amended (st : List Order) (req : CreateOrderReq)
    (now : Int) (its : List LineItem)
    (h1 : req.items = some its) (h2 : its ≠ []) :
    ∃ o, (createOrder st req now).1 = st ++ [o] ∧
      o.totalAmount = jsNum req.totalAmount (itemsSubtotal its) ∧
      (∀ t, req.totalAmount = some t → t ≠ 0 → o.totalAmount = t) ∧
      ((req.totalAmount = none ∨ req.totalAmount = some 0) →
        o.totalAmount = itemsSubtotal its) := by
  simp only [createOrder, h1]
  rw [if_neg h2]
  refine ⟨_, rfl, rfl, ?_, ?_⟩
  · intro t ht hne0
    rw [ht]
    simp [jsNum, hne0]
  · rintro (h | h) <;> rw [h] <;> simp [jsNum]

/-- C8 witness: `order_totalAmount_amended` at a request supplying
`totalAmount: 7` over one item of price 5, quantity 2. -/
theorem order_totalAmount_amended_witness :
    ((CreateOrderReq.mk none none (some [⟨none, "x", some 5, some 2⟩])
        (some 7)).items = some [⟨none, "x", some 5, some 2⟩] ∧
      ([⟨none, "x", some 5, some 2⟩] : List LineItem) ≠ []) ∧
    (∃ o, (createOrder []
        (CreateOrderReq.mk none none (some [⟨none, "x", some 5, some 2⟩])
          (some 7)) 0).1 = [] ++ [o] ∧
      o.totalAmount = jsNum (CreateOrderReq.mk none none
          (some [⟨none, "x", some 5, some 2⟩]) (some 7)).totalAmount
          (itemsSubtotal [⟨none, "x", some 5, some 2⟩]) ∧
      (∀ t, (CreateOrderReq.mk none none (some [⟨none, "x", some 5, some 2⟩])
          (some 7)).totalAmount = some t → t ≠ 0 → o.totalAmount = t) ∧
      (((CreateOrderReq.mk none none (some [⟨none, "x", some 5, some 2⟩])
          (some 7)).totalAmount = none ∨
        (CreateOrderReq.mk none none (some [⟨none, "x", some 5, some 2⟩])
          (some 7)).totalAmount = some 0) →
        o.totalAmount = itemsSubtotal [⟨none, "x", some 5, some 2⟩])) :=
  ⟨⟨rfl, by decide⟩,
    order_totalAmount_amended [] _ 0 _ rfl (by decide)⟩

/-! ## Claim about the bill arithmetic (C2) -/

/-- A fold accumulating sums equals the initial value plus the mapped sum. -/
lemma foldl_add_eq_sum {α : Type} (f : α → Int) :
    ∀ (l : List α) (a : Int), l.foldl (fun s x => s + f x) a = a + (l.map f).sum := by
  intro l
  induction l with
  | nil => intro a; simp
  | cons x t ih =>
    intro a
    simp only [List.foldl_cons, List.map_cons, List.sum_cons, ih, add_assoc]

/-- `Math.round(s * 0.05)` is the round-half-up value `(s * 5 + 50) / 100`
(Euclidean division; for non-negative `s` this is round half away from
zero). -/
lemma jsRound_tax (s : Int) : jsRound ((s : ℚ) * (5 / 100)) = (s * 5 + 50) / 100 := by
  unfold jsRound
  rw [show ((s : ℚ) * (5 / 100) + 1 / 2) = (((s * 5 + 50 : Int) : ℚ)) / ((100 : ℕ) : ℚ)
      by push_cast; ring]
  exact Rat.floor_intCast_div_natCast _ _

/-- `Math.round(s * 0.02)` is the round-half-up value `(s * 2 + 50) / 100`. -/
lemma jsRound_service (s : Int) : jsRound ((s : ℚ) * (2 / 100)) = (s * 2 + 50) / 100 := by
  unfold jsRound
  rw [show ((s : ℚ) * (2 / 100) + 1 / 2) = (((s * 2 + 50 : Int) : ℚ)) / ((100 : ℕ) : ℚ)
      by push_cast; ring]
  exact Rat.floor_intCast_div_natCast _ _

/-- C2: for a non-empty item list with present non-negative prices and present
positive quantities, the bill computation returns
`subtotal = Σ price·quantity`, `tax = round(subtotal·0.05)` and
`service = round(subtotal·0.02)` under round-half-up, and
`total = subtotal + tax + service`; in particular
`[{price:120, quantity:2}] ↦ (240, 12, 5, 257)` and
`[{price:20, quantity:2}] ↦ (40, 2, 1, 43)`. -/
theorem bill_computation_correct (items : List LineItem)
    (_hne : items ≠ [])
    (hpq : ∀ it ∈ items, (∃ p, it.price = some p ∧ 0 ≤ p) ∧
      (∃ q, it.quantity = some q ∧ 0 < q)) :
    (computeBill items).subtotal
        = (items.map (fun it => it.price.getD 0 * it.quantity.getD 1)).sum ∧
    (computeBill items).tax = ((computeBill items).subtotal * 5 + 50) / 100 ∧
    (computeBill items).service = ((computeBill items).subtotal * 2 + 50) / 100 ∧
    (computeBill items).total
        = (computeBill items).subtotal + (computeBill items).tax
          + (computeBill items).service ∧
    computeBill [⟨none, "x", some 120, some 2⟩] = ⟨240, 12, 5, 257⟩ ∧
    computeBill [⟨none, "x", some 20, some 2⟩] = ⟨40, 2, 1, 43⟩ := by
  refine ⟨?_, jsRound_tax _, jsRound_service _, rfl, ?_, ?_⟩
  · show itemsSubtotal items = _
    rw [itemsSubtotal, foldl_add_eq_sum, zero_add]
    refine congrArg List.sum (List.map_congr_left ?_)
    intro it hit
    obtain ⟨⟨p, hp, _⟩, ⟨q, hq, hq0⟩⟩ := hpq it hit
    rw [hp, hq]
    simp only [jsNum, Option.getD_some]
    rw [if_neg (by omega : ¬q = 0)]
    split
    · rename_i h0
      rw [h0, zero_mul]
    · rfl
  · simp only [computeBill, itemsSubtotal, jsNum, jsRound]
    norm_num
  · simp only [computeBill, itemsSubtotal, jsNum, jsRound]
    norm_num

/-- C2 witness: `bill_computation_correct` at the single item
`{price: 120, quantity: 2}`. -/
theorem bill_computation_correct_witness :
    (([⟨none, "x", some 120, some 2⟩] : List LineItem) ≠ [] ∧
      (∀ it ∈ ([⟨none, "x", some 120, some 2⟩] : List LineItem),
        (∃ p, it.price = some p ∧ 0 ≤ p) ∧ (∃ q, it.quantity = some q ∧ 0 < q))) ∧
    ((computeBill [⟨none, "x", some 120, some 2⟩]).subtotal
        = (([⟨none, "x", some 120, some 2⟩] : List LineItem).map
            (fun it => it.price.getD 0 * it.quantity.getD 1)).sum ∧
      (computeBill [⟨none, "x", some 120, some 2⟩]).tax
        = ((computeBill [⟨none, "x", some 120, some 2⟩]).subtotal * 5 + 50) / 100 ∧
      (computeBill [⟨none, "x", some 120, some 2⟩]).service
        = ((computeBill [⟨none, "x", some 120, some 2⟩]).subtotal * 2 + 50) / 100 ∧
      (computeBill [⟨none, "x", some 120, some 2⟩]).total
        = (computeBill [⟨none, "x", some 120, some 2⟩]).subtotal
          + (computeBill [⟨none, "x", some 120, some 2⟩]).tax
          + (computeBill [⟨none, "x", some 120, some 2⟩]).service ∧
      computeBill [⟨none, "x", some 120, some 2⟩] = ⟨240, 12, 5, 257⟩ ∧
      computeBill [⟨none, "x", some 20, some 2⟩] = ⟨40, 2, 1, 43⟩) :=
  ⟨⟨by decide, by
      intro it hit
      simp only [List.mem_singleton] at hit
      subst hit
      exact ⟨⟨120, rfl, by norm_num⟩, ⟨2, rfl, by norm_num⟩⟩⟩,
    bill_computation_correct [⟨none, "x", some 120, some 2⟩] (by decide)
      (by
        intro it hit
        simp only [List.mem_singleton] at hit
        subst hit
        exact ⟨⟨120, rfl, by norm_num⟩, ⟨2, rfl, by norm_num⟩⟩)⟩

/-! ## Claims about the OTP flow (C3, C4) -/

/-- A valid phone normalizes to something. -/
lemma isValidPhone_some {P : String} (h : isValidPhone P = true) :
    ∃ np, normalizePhone P = some np := by
  unfold isValidPhone at h
  cases hn : normalizePhone P with
  | none => rw [hn] at h; simp at h
  | some np => exact ⟨np, rfl⟩

/-- A valid phone is non-empty (the empty string normalizes to `null`). -/
lemma isValidPhone_ne_empty {P : String} (h : isValidPhone P = true) : P ≠ "" := by
  intro he
  subst he
  have hfalse : isValidPhone "" = false := rfl
  rw [hfalse] at h
  exact Bool.false_ne_true h

/-- C3 counterexample: when the second random draw happens to repeat the first
code (both `1234`, a possible outcome of `Math.floor(1000 + Math.random() * 9000)`),
verifying with the first code after the second request succeeds rather than
failing with `"Invalid code"`. -/
theorem otp_overwrite_cex :
    (verifyOtp (requestOtp (requestOtp emptyOtps "+12345678" 1234 0).1
        "+12345678" 1234 1).1 "+12345678" 1234).2 = .ok "+12345678" ∧
    (verifyOtp (requestOtp (requestOtp emptyOtps "+12345678" 1234 0).1
        "+12345678" 1234 1).1 "+12345678" 1234).2 ≠ .error "Invalid code" := by
  constructor
  · rfl
  · intro h
    rw [show (verifyOtp (requestOtp (requestOtp emptyOtps "+12345678" 1234 0).1
        "+12345678" 1234 1).1 "+12345678" 1234).2 = .ok "+12345678" from rfl] at h
    exact Except.noConfusion h

/-- C3 (amended): issuing a second OTP for the same phone overwrites the first
record, so — provided the second draw differs from the first — verifying with
the first code afterwards fails with `"Invalid code"`. (When the second draw
coincides with the first, the single stored record still matches it and the
verify succeeds, see the counterexample.) -/
theorem otp_overwrite (st : OtpStore) (P : String) (d1 d2 : Nat) (n1 n2 : Int)
    (hP : isValidPhone P = true) (hd1 : d1 ≠ 0) (hne : d1 ≠ d2) :
    (verifyOtp (requestOtp (requestOtp st P d1 n1).1 P d2 n2).1 P d1).2
      = .error "Invalid code" := by
  have hPe : P ≠ "" := isValidPhone_ne_empty hP
  obtain ⟨np, hnp⟩ := isValidPhone_some hP
  have hst2 : (requestOtp (requestOtp st P d1 n1).1 P d2 n2).1 np
      = some ⟨d2, n2⟩ := by
    simp [requestOtp, hPe, hP, hnp]
  simp [verifyOtp, hPe, hd1, hP, hnp, hst2, Ne.symm hne]

/-- C3 witness: `otp_overwrite` with draws 1234 then 5678. -/
theorem otp_overwrite_witness :
    (isValidPhone "+12345678" = true ∧ (1234 : Nat) ≠ 0 ∧ (1234 : Nat) ≠ 5678) ∧
    (verifyOtp (requestOtp (requestOtp emptyOtps "+12345678" 1234 0).1
        "+12345678" 5678 1).1 "+12345678" 1234).2 = .error "Invalid code" :=
  ⟨⟨by decide, by decide, by decide⟩,
    otp_overwrite emptyOtps "+12345678" 1234 5678 0 1 (by decide) (by decide)
      (by decide)⟩

/-- C4: a successful verify deletes the stored record, so an immediately
repeated verify with the same phone and code fails with `"No OTP requested"`. -/
theorem otp_single_use (st : OtpStore) (P np : String) (C : Nat)
    (h : (verifyOtp st P C).2 = .ok np) :
    (verifyOtp (verifyOtp st P C).1 P C).2 = .error "No OTP requested" := by
  simp only [verifyOtp] at h ⊢
  split at h
  · simp at h
  · rename_i hcond
    split at h
    · rename_i hval
      split at h
      · rename_i np0 hnorm
        split at h
        · simp at h
        · rename_i r hrec
          split at h
          · simp at h
          · rename_i hcode
            simp [hcond, hval, hnorm, hrec, hcode]
      · simp at h
    · simp at h

/-- C4 witness: `otp_single_use` with one outstanding record for
`"+12345678"`. -/
theorem otp_single_use_witness :
    ((verifyOtp (fun p => if p = "+12345678" then some ⟨1234, 0⟩ else none)
        "+12345678" 1234).2 = .ok "+12345678") ∧
    (verifyOtp (verifyOtp (fun p => if p = "+12345678" then some ⟨1234, 0⟩ else none)
        "+12345678" 1234).1 "+12345678" 1234).2 = .error "No OTP requested" :=
  ⟨by rfl,
    otp_single_use (fun p => if p = "+12345678" then some ⟨1234, 0⟩ else none)
      "+12345678" "+12345678" 1234 (by rfl)⟩

/-! ## Claims about the daily report (C9, C10) -/

/-- The day window used by `dailyReport`, as a proposition. -/
def inDayWindow (start : Int) (b : Bill) : Prop :=
  start ≤ b.createdAt ∧ b.createdAt ≤ start + dayEndOffset

instance (start : Int) (b : Bill) : Decidable (inDayWindow start b) := by
  unfold inDayWindow
  infer_instance

/-- C9: for every stored bill collection and every date, the daily report
counts exactly the bills created inside the date's inclusive
`[00:00:00, 23:59:59]` window, sums their `total` fields, and reports
`averageOrderValue = totalRevenue / totalOrders` (0 when there are no
matching bills); two same-day bills with totals 161 and 43 give
`totalOrders = 2`, `totalRevenue = 204`, `averageOrderValue = 102`. -/
theorem daily_report_correct (bills : List Bill) (start : Int) :
    (dailyReport bills start).totalOrders
        = bills.countP (fun b => decide (inDayWindow start b)) ∧
    (dailyReport bills start).totalRevenue
        = ((bills.filter (fun b => decide (inDayWindow start b))).map
            (fun b => b.total)).sum ∧
    (dailyReport bills start).averageOrderValue
        = (if (dailyReport bills start).totalOrders = 0 then 0
           else ((dailyReport bills start).totalRevenue : ℚ)
                / ((dailyReport bills start).totalOrders : ℚ)) ∧
    ((dailyReport [⟨"BILL-1", none, "A", none, [], 0, 0, 0, 161, 1000⟩,
        ⟨"BILL-2", none, "B", none, [], 0, 0, 0, 43, 2000⟩] 0).totalOrders = 2 ∧
      (dailyReport [⟨"BILL-1", none, "A", none, [], 0, 0, 0, 161, 1000⟩,
        ⟨"BILL-2", none, "B", none, [], 0, 0, 0, 43, 2000⟩] 0).totalRevenue = 204 ∧
      (dailyReport [⟨"BILL-1", none, "A", none, [], 0, 0, 0, 161, 1000⟩,
        ⟨"BILL-2", none, "B", none, [], 0, 0, 0, 43, 2000⟩] 0).averageOrderValue
        = 102) := by
  have hfilter : bills.filter
      (fun b => decide (start ≤ b.createdAt) && decide (b.createdAt ≤ start + dayEndOffset))
      = bills.filter (fun b => decide (inDayWindow start b)) := by
    apply List.filter_congr
    intro b _
    simp [inDayWindow]
  refine ⟨?_, ?_, ?_, ?_⟩
  · show (bills.filter _).length = _
    rw [List.countP_eq_length_filter, hfilter]
  · show (bills.filter _).foldl (fun s b => s + jsNum (some b.total) 0) 0 = _
    rw [foldl_add_eq_sum, zero_add, hfilter]
    exact congrArg List.sum (List.map_congr_left fun b _ => jsNum_some_zero b.total)
  · rfl
  · refine ⟨by rfl, by rfl, ?_⟩
    show (if (2 : Nat) = 0 then (0 : ℚ) else ((204 : Int) : ℚ) / ((2 : Nat) : ℚ)) = 102
    norm_num

/-- Summing an indicator-weighted map counts the filter hits. -/
lemma sum_map_ite {M : Type} [AddCommMonoid M] (p : Nat → Bool) (w : M) :
    ∀ ks : List Nat,
      (ks.map (fun k => if p k = true then w else 0)).sum = (ks.filter p).length • w := by
  intro ks
  induction ks with
  | nil => simp
  | cons k t ih =>
    by_cases hk : p k = true
    · rw [List.map_cons, List.sum_cons, if_pos hk, ih,
        List.filter_cons_of_pos hk, List.length_cons, succ_nsmul, add_comm]
    · rw [List.map_cons, List.sum_cons, if_neg hk, ih,
        List.filter_cons_of_neg (by simp [hk]), zero_add]

/-- When every element of `l` lands in exactly one of the `n` filter buckets,
summing a weight over the buckets equals summing it over `l`. -/
lemma sum_filter_partition {α M : Type} [AddCommMonoid M]
    (pk : Nat → α → Bool) (w : α → M) (n : Nat) :
    ∀ l : List α, (∀ x ∈ l, ((List.range n).filter (fun k => pk k x)).length = 1) →
      ((List.range n).map (fun k => ((l.filter (pk k)).map w).sum)).sum
        = (l.map w).sum := by
  intro l
  induction l with
  | nil => simp
  | cons x t ih =>
    intro h
    have hx := h x (List.mem_cons_self x t)
    have ht := fun y hy => h y (List.mem_cons_of_mem x hy)
    have hsplit : ∀ k, ((List.filter (pk k) (x :: t)).map w).sum
        = (if pk k x = true then w x else 0) + ((t.filter (pk k)).map w).sum := by
      intro k
      by_cases hk : pk k x = true
      · rw [List.filter_cons_of_pos hk, List.map_cons, List.sum_cons, if_pos hk]
      · rw [List.filter_cons_of_neg (by simp [hk]), if_neg hk, zero_add]
    calc ((List.range n).map fun k => ((List.filter (pk k) (x :: t)).map w).sum).sum
        = ((List.range n).map fun k => (if pk k x = true then w x else 0)
            + ((t.filter (pk k)).map w).sum).sum :=
          congrArg List.sum (List.map_congr_left fun k _ => hsplit k)
      _ = ((List.range n).map fun k => if pk k x = true then w x else 0).sum
            + ((List.range n).map fun k => ((t.filter (pk k)).map w).sum).sum :=
          List.sum_map_add
      _ = w x + (t.map w).sum := by rw [sum_map_ite, hx, one_nsmul, ih ht]
      _ = ((x :: t).map w).sum := by rw [List.map_cons, List.sum_cons]

/-- A bill created inside the day window falls into exactly one of the 24
hourly buckets. -/
lemma hour_bucket_unique (start c : Int) (h0 : start ≤ c)
    (h1 : c ≤ start + dayEndOffset) :
    ((List.range 24).filter (fun (k : Nat) =>
        decide (start + (k : Int) * (3600 * 1000) ≤ c) &&
        decide (c ≤ start + (k : Int) * (3600 * 1000) + 3600 * 1000 - 1))).length
      = 1 := by
  have hoff : dayEndOffset = 86399000 := rfl
  rw [hoff] at h1
  have hcongr : ∀ k ∈ List.range 24,
      (decide (start + (k : Int) * (3600 * 1000) ≤ c) &&
       decide (c ≤ start + (k : Int) * (3600 * 1000) + 3600 * 1000 - 1))
        = (k == ((c - start) / 3600000).toNat) := by
    intro k hk
    have hk24 : k < 24 := List.mem_range.mp hk
    rw [Bool.eq_iff_iff]
    simp only [Bool.and_eq_true, decide_eq_true_eq, beq_iff_eq]
    omega
  rw [List.filter_congr hcongr, ← List.countP_eq_length_filter]
  have hcount : (List.range 24).countP (fun k => k == ((c - start) / 3600000).toNat)
      = (List.range 24).count (((c - start) / 3600000).toNat) := rfl
  rw [hcount]
  exact List.count_eq_one_of_mem (List.nodup_range 24)
    (List.mem_range.mpr (by omega))

/-- The length of a list as a sum of ones. -/
lemma length_eq_sum_map_one {α : Type} (l : List α) :
    l.length = (l.map (fun _ => (1 : Nat))).sum := by
  induction l with
  | nil => rfl
  | cons x t ih =>
    rw [List.length_cons, ih, List.map_cons, List.sum_cons]
    omega

/-- The counting instance of `sum_filter_partition`. -/
lemma count_filter_partition {α : Type} (pk : Nat → α → Bool) (n : Nat)
    (l : List α)
    (h : ∀ x ∈ l, ((List.range n).filter (fun k => pk k x)).length = 1) :
    ((List.range n).map (fun k => (l.filter (pk k)).length)).sum = l.length := by
  have hs := sum_filter_partition pk (fun _ => (1 : Nat)) n l h
  have hrw : ∀ (m : List α), (m.map (fun _ => (1 : Nat))).sum = m.length :=
    fun m => (length_eq_sum_map_one m).symm
  simp only [hrw] at hs
  exact hs

/-- C10: the 24-entry `hourlyBreakdown` partitions the day's bills — the
hourly `orders` counts sum to `totalOrders` and the hourly `revenue` values
sum to `totalRevenue`, since every bill inside the day window falls into
exactly one hourly bucket. -/
theorem hourly_breakdown_partitions (bills : List Bill) (start : Int) :
    (((dailyReport bills start).hourlyBreakdown.map (fun e => e.orders)).sum
        = (dailyReport bills start).totalOrders) ∧
    (((dailyReport bills start).hourlyBreakdown.map (fun e => e.revenue)).sum
        = (dailyReport bills start).totalRevenue) := by
  have hmem : ∀ b ∈ bills.filter (fun b => decide (start ≤ b.createdAt) &&
      decide (b.createdAt ≤ start + dayEndOffset)),
      ((List.range 24).filter (fun (k : Nat) =>
        decide (start + (k : Int) * (3600 * 1000) ≤ b.createdAt) &&
        decide (b.createdAt ≤ start + (k : Int) * (3600 * 1000) + 3600 * 1000 - 1))).length
        = 1 := by
    intro b hb
    have hw := List.mem_filter.mp hb
    simp only [Bool.and_eq_true, decide_eq_true_eq] at hw
    exact hour_bucket_unique start b.createdAt hw.2.1 hw.2.2
  constructor
  · simp only [dailyReport, List.map_map, Function.comp]
    exact count_filter_partition _ 24 _ hmem
  · simp only [dailyReport, List.map_map, Function.comp]
    simp only [foldl_add_eq_sum, zero_add]
    exact sum_filter_partition _ _ 24 _ hmem
